import Mathlib

/-!
# Verification of `yieldfrom` (PEP 380 backport for Python 2)

Shallow embedding of `src/yieldfrom.py`.  Python generators are modelled as
interaction trees (`GenM`): the root of a tree is the outcome of the next
poll of the generator, and a `yields` node carries the continuation that
consumes the next external event (a sent value or a thrown exception).
`From` instances are modelled as `Item.marker` wrapping an iterator with
explicit capability flags (`send`/`throw`/`close` attributes).  The driver
`wrapper` is a total transformer from generator trees to driver trees
(`Drv`); its exit leaves record the sequence of `close_safely` attempts
performed by the `finally` clause and the `GeneratorExit` handler.
-/

set_option autoImplicit false

namespace YieldFrom

/-- Identities of Python exceptions, as far as the driver distinguishes
them.  The `tag` arguments give distinct exception objects their own
identity, so that "propagates unchanged" is expressible. -/
inductive Exc where
  | valueError (tag : Nat)
  | typeError (tag : Nat)
  | attributeError (attr : String)
  | generatorExit
  | keyboardInterrupt
  | other (tag : Nat)
deriving DecidableEq, Repr

/-- `isinstance(e, Exception)`: in Python 2.6+, `GeneratorExit` and
`KeyboardInterrupt` derive from `BaseException` but not from `Exception`. -/
def Exc.isExceptionClass : Exc → Bool
  | .generatorExit => false
  | .keyboardInterrupt => false
  | _ => true

/-- Plain (non-`From`) Python values appearing in the examples. -/
inductive PyVal where
  | none
  | bool (b : Bool)
  | int (n : Int)
  | str (s : String)
  | exc (e : Exc)
deriving DecidableEq, Repr

/-- Python truthiness, used by the driver's `if sent:` test. -/
def PyVal.truthy : PyVal → Bool
  | .none => false
  | .bool b => b
  | .int n => n != 0
  | .str s => s != ""
  | .exc _ => true

mutual
/-- A value travelling through the driver: either a plain value or a
`From` instance (delegation marker). -/
inductive Item where
  | val (v : PyVal)
  | marker (it : Iterat)

/-- An iterator as stored in `From.iterator`: a generator tree plus the
capability flags the driver probes (`send`, `throw`, `close` attributes). -/
inductive Iterat where
  | mk (hasSend hasThrow hasClose : Bool) (g : GenM)

/-- A Python generator, observed through its protocol: the root of the
tree is the outcome of the next poll (`next`/`send`/`throw`), and the
continuation of a `yields` node consumes the following external event,
`Sum.inl v` for `send(v)` (`next()` sends `None`) and `Sum.inr e` for
`throw(e)`. -/
inductive GenM where
  | yields (i : Item) (k : PyVal ⊕ Exc → GenM)
  | stops (ret : Option PyVal)
  | raises (e : Exc)
end

/-- Which producer a `close_safely` attempt targeted. -/
inductive Who where
  | inner
  | outer
deriving DecidableEq, Repr

/-- The tree of the wrapped generator produced by `wrapper`.  Exit leaves
additionally record, in order, the `close_safely` attempts performed on
the way out (`close_safely` ignores a missing `close` attribute, so an
attempt is recorded whether or not the target has the capability). -/
inductive Drv where
  | yields (i : Item) (k : PyVal ⊕ Exc → Drv)
  | stops (closes : List Who) (ret : Option PyVal)
  | raises (closes : List Who) (e : Exc)

/-- `get_stop_iteration_value`: `e_stop.args[0] if e_stop.args else None`. -/
def get_stop_iteration_value : Option PyVal → PyVal
  | some v => v
  | Option.none => PyVal.none

/-- The INNER loop of `wrapper` (source lines 273-345), entered at a
`yields` node of the subgenerator.  `hs`/`ht` say whether the
subgenerator has `send`/`throw` attributes; `exitD` is the return to the
OUTER loop, applied to the event pushed back into `gen`
(`Sum.inl v` for `gen.send(v)`, `Sum.inr e` for `gen.throw(e)`). -/
def innerStep (hs ht : Bool) (exitD : PyVal ⊕ Exc → Drv) : GenM → Drv
  | .stops ret => exitD (.inl (get_stop_iteration_value ret))
  | .raises e => exitD (.inr e)
  | .yields si ks =>
    .yields si (fun ev =>
      match ev with
      | .inl sent =>
        -- `if sent: subitem = subgen.send(sent) else: subitem = subgen.next()`
        if sent.truthy then
          if hs then innerStep hs ht exitD (ks (.inl sent))
          else
            -- `subgen.send` raises AttributeError, caught by
            -- `except BaseException` and pushed into `gen.throw`.
            exitD (.inr (.attributeError "send"))
        else innerStep hs ht exitD (ks (.inl PyVal.none))
      | .inr e =>
        if e = .generatorExit then
          -- `except GeneratorExit`: close subgen, re-raise; the
          -- `finally` then closes `gen`.
          .raises [.inner, .outer] .generatorExit
        else if ht then innerStep hs ht exitD (ks (.inr e))
        else
          -- no `throw` attribute on subgen: push the exception into `gen`.
          exitD (.inr e))

/-- The OUTER loop of `wrapper` (source lines 241-345), applied to the
outcome of the last poll of `gen`.  Exit leaves carry the `close_safely`
attempts of the `finally` clause. -/
def outerStep : GenM → Drv
  | .stops ret => .stops [.outer] ret
  | .raises e => .raises [.outer] e
  | .yields item kg =>
    match item with
    | .val v =>
      -- `if not isinstance(item, From)`
      .yields (.val v) (fun ev =>
        match ev with
        | .inl sent => outerStep (kg (.inl sent))
        | .inr e =>
          -- only `except Exception`: GeneratorExit / KeyboardInterrupt
          -- propagate (after the `finally` closes `gen`).
          if e.isExceptionClass then outerStep (kg (.inr e))
          else .raises [.outer] e)
    | .marker it =>
      match it with
      | .mk hs ht _hc sg =>
        -- first poll of `subgen`: only StopIteration is caught here.
        match sg with
        | .stops ret => outerStep (kg (.inl (get_stop_iteration_value ret)))
        | .raises e => .raises [.outer] e
        | .yields si ks =>
          innerStep hs ht (fun r => outerStep (kg r)) (.yields si ks)

/-- `wrapper` of the `yieldfrom` decorator: `gen` is the generator made
by the decorated function, already at its first poll (`gen.next()`). -/
def wrapper (gen : GenM) : Drv := outerStep gen

/-! ## Observing a wrapped generator -/

/-- The value the driver is currently suspended on, if any. -/
def Drv.head : Drv → Option Item
  | .yields i _ => some i
  | _ => Option.none

/-- Resume the driver with one external event (`send` or `throw`);
a finished driver stays finished. -/
def Drv.resumeWith (d : Drv) (ev : PyVal ⊕ Exc) : Drv :=
  match d with
  | .yields _ k => k ev
  | d' => d'

/-- Resume the driver with a sequence of external events. -/
def Drv.afterEvents (d : Drv) : List (PyVal ⊕ Exc) → Drv
  | [] => d
  | ev :: evs => (d.resumeWith ev).afterEvents evs

/-- All values emitted when the caller only ever calls `next()`
(which sends `None`) until the driver finishes. -/
def outputs : Drv → List Item
  | .yields i k => i :: outputs (k (.inl PyVal.none))
  | _ => []

/-- The exception escaping to the caller, if any, when driving with
`next()` to the end. -/
def finalExc : Drv → Option Exc
  | .yields _ k => finalExc (k (.inl PyVal.none))
  | .stops _ _ => Option.none
  | .raises _ e => some e

/-- Drive with `next()` to the end, returning the emitted values and the
final leaf (which records the close attempts and the completion value or
escaping exception). -/
def runAll : Drv → List Item × Drv
  | .yields i k => ((i :: (runAll (k (.inl PyVal.none))).1), (runAll (k (.inl PyVal.none))).2)
  | d => ([], d)

/-- Forget the close-attempt instrumentation: the wrapped generator seen
purely through the generator protocol, usable as an inner producer of
another driver (a wrapped generator has `send`/`throw`/`close`). -/
def Drv.toGen : Drv → GenM
  | .yields i k => .yields i (fun ev => Drv.toGen (k ev))
  | .stops _ ret => .stops ret
  | .raises _ e => .raises e

/-! ## Producers used as delegation targets -/

/-- The generator tree of a list iterator over the given items: yields
them in order, ignores whatever is sent (it can only be advanced by
`next`), then raises a bare `StopIteration`. -/
def listGen : List Item → GenM
  | [] => .stops Option.none
  | i :: rest => .yields i (fun _ => listGen rest)

/-- `iter` of a list: a `listiterator` has `next` but none of the
`send`/`throw`/`close` attributes. -/
def listIter (xs : List Item) : Iterat :=
  .mk false false false (listGen xs)

/-- `From.__init__`: `iter(iterable_expression)`, and on `TypeError`
(the argument is not iterable) `iter([])`.  The argument `some it`
stands for an iterable whose iterator is `it`; `none` stands for a
non-iterable argument. -/
def From (x : Option Iterat) : Item :=
  match x with
  | some it => .marker it
  | Option.none => .marker (listIter [])

/-- A generator with all of `send`/`throw`/`close`. -/
def genIter (g : GenM) : Iterat := .mk true true true g

/-! ## Generator families quantified over by the claims -/

/-- One statement of a generator body: a plain `yield v`, a
`yield From(vs)` delegation to a list, or a `yield From(sub())`
delegation to a generator yielding `vs`. -/
inductive Seg where
  | plain (v : PyVal)
  | deleg (vs : List PyVal)
  | delegGen (vs : List PyVal)

/-- Inner producer: yields `vs` in order and then terminates with
`StopIteration(v)` when `ret = some v` (as `Return(v)` does), or with a
bare `StopIteration` when `ret = none`. -/
def listGenRet : List PyVal → Option PyVal → GenM
  | [], ret => .stops ret
  | x :: xs, ret => .yields (.val x) (fun _ => listGenRet xs ret)

/-- The generator of a body that executes the given statements in order
(ignoring sent values) and then returns. -/
def genOfScript : List Seg → GenM
  | [] => .stops Option.none
  | .plain v :: r => .yields (.val v) (fun _ => genOfScript r)
  | .deleg vs :: r =>
    .yields (From (some (listIter (vs.map Item.val)))) (fun _ => genOfScript r)
  | .delegGen vs :: r =>
    .yields (From (some (genIter (listGenRet vs Option.none))))
      (fun _ => genOfScript r)

/-- The depth-first concatenation of each scope's yields. -/
def flattenScript : List Seg → List PyVal
  | [] => []
  | .plain v :: r => v :: flattenScript r
  | .deleg vs :: r => vs ++ flattenScript r
  | .delegGen vs :: r => vs ++ flattenScript r

/-- Outer generator `def gen(): r = yield From(inner); yield r`: it
re-emits whatever value the delegation expression evaluated to, making
the value sent at the delegation point observable. -/
def captureGen (inner : Iterat) : GenM :=
  .yields (.marker inner) (fun ev =>
    match ev with
    | .inl r => .yields (.val r) (fun _ => .stops Option.none)
    | .inr e => .raises e)

/-- Inner generator `def inner(): try: yield iv; except «handled»: yield
200`: it yields `iv`, and an exception thrown at that suspension point is
observed by its handler exactly when `handled` accepts it; otherwise it
propagates out of the inner generator. -/
def handlerInner (iv : PyVal) (handled : Exc → Bool) : GenM :=
  .yields (.val iv) (fun ev =>
    match ev with
    | .inl _ => .stops Option.none
    | .inr e =>
      if handled e then .yields (.val (.int 200)) (fun _ => .stops Option.none)
      else .raises e)

/-- Outer generator `def gen(): try: yield From(inner); except «hO»:
yield 300`: delegates to `handlerInner iv hI`, with its own handler at
the delegation point accepting exactly the exceptions in `hO`. -/
def routeGen (hI hO : Exc → Bool) (iv : PyVal) : GenM :=
  .yields (.marker (genIter (handlerInner iv hI))) (fun ev =>
    match ev with
    | .inl _ => .stops Option.none
    | .inr e =>
      if hO e then .yields (.val (.int 300)) (fun _ => .stops Option.none)
      else .raises e)

/-- Outer generator delegating to the list iterator of `[2, 3]` (which
has no `send` attribute), re-raising any exception thrown at the
delegation point. -/
def listDelegGen : GenM :=
  .yields (.marker (listIter [.val (.int 2), .val (.int 3)])) (fun ev =>
    match ev with
    | .inl _ => .stops Option.none
    | .inr e => .raises e)

/-- Inner generator `def inner(): got = yield 1; yield got`: re-emits
whatever its first suspension point was resumed with, making the
`send`-versus-`next` decision of the driver observable. -/
def echoInner : GenM :=
  .yields (.val (.int 1)) (fun ev =>
    match ev with
    | .inl v => .yields (.val v) (fun _ => .stops Option.none)
    | .inr e => .raises e)

/-- Outer generator delegating to `echoInner`, where the inner iterator
carries `send` capability iff `hs`. -/
def sendProbeGen (hs : Bool) : GenM :=
  .yields (.marker (.mk hs true true echoInner)) (fun ev =>
    match ev with
    | .inl v => .stops (some v)
    | .inr e => .raises e)

/-- Outer generator delegating to an inner producer that has no `throw`
attribute, with a handler at the delegation point that re-emits any
caught exception as a value (`except BaseException as e: yield e`),
making the exception delivered to the outer scope observable. -/
def noThrowDelegGen (iv : Item) (ki : PyVal ⊕ Exc → GenM) : GenM :=
  .yields (.marker (.mk true false true (.yields iv ki))) (fun ev =>
    match ev with
    | .inl v => .stops (some v)
    | .inr e' => .yields (.val (.exc e')) (fun _ => .stops Option.none))

/-- Every exit leaf reachable in a driver tree records the `close_safely`
attempt on the outer generator exactly once and as the last attempt, and
records at most one earlier attempt, on the inner producer (the
`GeneratorExit`-while-delegating path). -/
def ClosesOK : Drv → Prop
  | .yields _ k => ∀ ev, ClosesOK (k ev)
  | .stops cs _ => cs = [Who.outer]
  | .raises cs _ => cs = [Who.outer] ∨ cs = [Who.inner, Who.outer]

/-- Nested generator bodies: a sequence of plain `yield v` statements and
`yield From(sub())` delegations, where every delegation target is itself
a `yieldfrom`-wrapped generator of the same shape. -/
inductive NS where
  | done
  | plain (v : PyVal) (rest : NS)
  | deleg (inner : NS) (rest : NS)

/-- Depth-first concatenation of every scope's yields. -/
def flattenN : NS → List PyVal
  | .done => []
  | .plain v r => v :: flattenN r
  | .deleg s r => flattenN s ++ flattenN r

/-- The generator of a nested body: each delegation target is the
generator returned by a `yieldfrom`-wrapped function, used as an inner
producer through the full `next`/`send`/`throw`/`close` capability set. -/
def genOfN : NS → GenM
  | .done => .stops Option.none
  | .plain v r => .yields (.val v) (fun _ => genOfN r)
  | .deleg s r =>
    .yields (.marker (genIter (Drv.toGen (wrapper (genOfN s)))))
      (fun _ => genOfN r)

/-- The two-level nesting scenario of the repository documentation:
`subsubgen` yields `2` and yields `200` if a `ValueError` is thrown at
that point. -/
def nestedInner : GenM :=
  .yields (.val (.int 2)) (fun ev =>
    match ev with
    | .inl _ => .stops Option.none
    | .inr (.valueError _) =>
      .yields (.val (.int 200)) (fun _ => .stops Option.none)
    | .inr e => .raises e)

/-- `subgen`: `yield From(subsubgen()); yield 3`, itself wrapped. -/
def nestedMid : GenM :=
  .yields (.marker (genIter nestedInner)) (fun ev =>
    match ev with
    | .inl _ => .yields (.val (.int 3)) (fun _ => .stops Option.none)
    | .inr e => .raises e)

/-- `gen`: `yield 1; yield From(subgen()); yield 4`, where `subgen` is
already wrapped: the wrapped driver is used as the inner producer. -/
def nestedTop : GenM :=
  .yields (.val (.int 1)) (fun ev =>
    match ev with
    | .inl _ =>
      .yields (.marker (genIter (Drv.toGen (wrapper nestedMid)))) (fun ev2 =>
        match ev2 with
        | .inl _ => .yields (.val (.int 4)) (fun _ => .stops Option.none)
        | .inr e => .raises e)
    | .inr e => .raises e)

/-- Outer generator `def gen(): try: yield 1; except BaseException as e:
yield e`: re-emits any exception its suspension point observes, so the
forwarding decision of the driver is visible. -/
def echoExcOuter : GenM :=
  .yields (.val (.int 1)) (fun ev =>
    match ev with
    | .inl _ => .stops Option.none
    | .inr e => .yields (.val (.exc e)) (fun _ => .stops Option.none))

/-- Outer generator delegating to an exception-echoing inner generator
(same body as `echoExcOuter`), re-raising anything thrown at its own
delegation point. -/
def echoExcDeleg : GenM :=
  .yields (.marker (genIter echoExcOuter)) (fun ev =>
    match ev with
    | .inl _ => .stops Option.none
    | .inr e => .raises e)

/-- Outer generator delegating to an inner producer whose own first value
is a `From` instance over the iterator `it2`. -/
def markerYieldingDeleg (it2 : Iterat) (ki kg : PyVal ⊕ Exc → GenM) : GenM :=
  .yields (.marker (genIter (.yields (.marker it2) ki))) kg

/-! ## Helper lemmas -/

theorem innerStep_listGen_outputs (vs : List Item) (exitD : PyVal ⊕ Exc → Drv) :
    outputs (innerStep false false exitD (listGen vs)) =
      vs ++ outputs (exitD (.inl PyVal.none)) := by
  induction vs with
  | nil => simp [listGen, innerStep, get_stop_iteration_value]
  | cons i rest ih => simp [listGen, innerStep, outputs, PyVal.truthy, ih]

theorem innerStep_listGenRet_outputs (vs : List PyVal) (ret : Option PyVal)
    (hs ht : Bool) (exitD : PyVal ⊕ Exc → Drv) :
    outputs (innerStep hs ht exitD (listGenRet vs ret)) =
      vs.map Item.val ++ outputs (exitD (.inl (get_stop_iteration_value ret))) := by
  induction vs with
  | nil => simp [listGenRet, innerStep]
  | cons x xs ih => simp [listGenRet, innerStep, outputs, PyVal.truthy, ih]

theorem closesOK_innerStep (hs ht : Bool) (exitD : PyVal ⊕ Exc → Drv)
    (hx : ∀ r, ClosesOK (exitD r)) :
    (g : GenM) → ClosesOK (innerStep hs ht exitD g)
  | .stops ret => hx _
  | .raises e => hx _
  | .yields si ks => by
    simp only [innerStep, ClosesOK]
    intro ev
    rcases ev with sent | e
    · by_cases hts : sent.truthy
      · by_cases hhs : hs
        · simpa [hts, hhs] using
            closesOK_innerStep hs ht exitD hx (ks (.inl sent))
        · simpa [hts, hhs] using hx (.inr (.attributeError "send"))
      · simpa [hts] using
          closesOK_innerStep hs ht exitD hx (ks (.inl PyVal.none))
    · by_cases hge : e = .generatorExit
      · simp [hge, ClosesOK]
      · by_cases hht : ht
        · simpa [hge, hht] using
            closesOK_innerStep hs ht exitD hx (ks (.inr e))
        · simpa [hge, hht] using hx (.inr e)

theorem closesOK_outerStep : (g : GenM) → ClosesOK (outerStep g)
  | .stops ret => by simp [outerStep, ClosesOK]
  | .raises e => by simp [outerStep, ClosesOK]
  | .yields item kg => by
    cases item with
    | val v =>
      simp only [outerStep, ClosesOK]
      intro ev
      rcases ev with sent | e
      · simpa using closesOK_outerStep (kg (.inl sent))
      · by_cases hcls : e.isExceptionClass
        · simpa [hcls] using closesOK_outerStep (kg (.inr e))
        · simp [hcls, ClosesOK]
    | marker it =>
      cases it with
      | mk hs ht hc sg =>
        cases sg with
        | stops ret =>
          simpa [outerStep] using
            closesOK_outerStep (kg (.inl (get_stop_iteration_value ret)))
        | raises e => simp [outerStep, ClosesOK]
        | yields si ks =>
          simpa [outerStep] using
            closesOK_innerStep hs ht (fun r => outerStep (kg r))
              (fun r => closesOK_outerStep (kg r)) (.yields si ks)

theorem closesOK_resumeWith {d : Drv} (h : ClosesOK d) (ev : PyVal ⊕ Exc) :
    ClosesOK (d.resumeWith ev) := by
  cases d with
  | yields i k => exact h ev
  | stops cs r => exact h
  | raises cs e => exact h

theorem closesOK_afterEvents {d : Drv} (h : ClosesOK d) :
    (evs : List (PyVal ⊕ Exc)) → ClosesOK (d.afterEvents evs)
  | [] => h
  | ev :: evs => closesOK_afterEvents (closesOK_resumeWith h ev) evs

theorem innerStep_toGen_runAll (exitD : PyVal ⊕ Exc → Drv) :
    (d : Drv) → (L : List Item) → (cs : List Who) →
    runAll d = (L, .stops cs Option.none) →
    runAll (innerStep true true exitD (Drv.toGen d)) =
      (L ++ (runAll (exitD (.inl PyVal.none))).1,
       (runAll (exitD (.inl PyVal.none))).2)
  | .stops cs' ret, L, cs, h => by
    simp only [runAll, Prod.mk.injEq, Drv.stops.injEq] at h
    obtain ⟨hL, hcs, hret⟩ := h
    subst hL hret
    simp [Drv.toGen, innerStep, get_stop_iteration_value, runAll]
  | .raises cs' e, L, cs, h => by
    simp only [runAll, Prod.mk.injEq] at h
    exact absurd h.2 (by simp)
  | .yields i k, L, cs, h => by
    simp only [runAll, Prod.mk.injEq] at h
    obtain ⟨hL, h2⟩ := h
    have hrec := innerStep_toGen_runAll exitD (k (.inl PyVal.none))
      (runAll (k (.inl PyVal.none))).1 cs (by rw [← h2])
    subst hL
    simp only [Drv.toGen, innerStep, runAll, PyVal.truthy]
    simp [hrec]

theorem outerStep_delegate_wrapped (kg : PyVal ⊕ Exc → GenM) (d : Drv)
    (L : List Item) (h : runAll d = (L, .stops [Who.outer] Option.none)) :
    runAll (outerStep (.yields (.marker (genIter (Drv.toGen d))) kg)) =
      (L ++ (runAll (outerStep (kg (.inl PyVal.none)))).1,
       (runAll (outerStep (kg (.inl PyVal.none)))).2) := by
  cases d with
  | stops cs ret =>
    simp only [runAll, Prod.mk.injEq, Drv.stops.injEq] at h
    obtain ⟨hL, hcs, hret⟩ := h
    subst hL hret
    simp [Drv.toGen, genIter, outerStep, get_stop_iteration_value]
  | raises cs e =>
    simp only [runAll, Prod.mk.injEq] at h
    exact absurd h.2 (by simp)
  | yields i k =>
    have hrec := innerStep_toGen_runAll (fun r => outerStep (kg r)) (.yields i k)
      L [Who.outer] h
    simpa [Drv.toGen, genIter, outerStep] using hrec

theorem nested_flattening (s : NS) :
    runAll (wrapper (genOfN s)) =
      ((flattenN s).map Item.val, Drv.stops [Who.outer] Option.none) := by
  induction s with
  | done => simp [genOfN, wrapper, outerStep, flattenN, runAll]
  | plain v r ih =>
    simp only [wrapper] at ih
    simp [genOfN, wrapper, outerStep, flattenN, runAll, ih]
  | deleg s r ihs ihr =>
    have h := outerStep_delegate_wrapped (fun _ => genOfN r)
      (wrapper (genOfN s)) ((flattenN s).map Item.val) ihs
    simp only [wrapper] at h ihr
    simp only [genOfN, wrapper]
    rw [h]
    simp [flattenN, ihr]

/-! ## The claims -/

/-- C1: iterating the wrapped generator to exhaustion yields exactly the
depth-first concatenation of each scope's yielded values: a delegated
inner producer (list iterator or generator) is emitted in full, in its
own order, before the delegating scope resumes. -/
theorem yieldfrom_depth_first_flattening (s : List Seg) :
    outputs (wrapper (genOfScript s)) = (flattenScript s).map Item.val := by
  induction s with
  | nil => simp [genOfScript, wrapper, outerStep, flattenScript, outputs]
  | cons seg r ih =>
    simp only [wrapper] at ih
    cases seg with
    | plain v =>
      simp [genOfScript, wrapper, outerStep, outputs, flattenScript, ih]
    | deleg vs =>
      cases vs with
      | nil =>
        simp [genOfScript, wrapper, outerStep, flattenScript, From, listIter,
          listGen, get_stop_iteration_value, ih]
      | cons x xs =>
        have h := innerStep_listGen_outputs
          (Item.val x :: xs.map Item.val)
          (fun r' => outerStep (genOfScript r))
        rw [show listGen (Item.val x :: xs.map Item.val)
            = GenM.yields (Item.val x) (fun _ => listGen (xs.map Item.val))
          from rfl] at h
        simp [genOfScript, wrapper, outerStep, flattenScript, From, listIter,
          listGen, ih] at h ⊢
        simpa [ih] using h
    | delegGen vs =>
      cases vs with
      | nil =>
        simp [genOfScript, wrapper, outerStep, flattenScript, From, genIter,
          listGenRet, get_stop_iteration_value, ih]
      | cons x xs =>
        have h := innerStep_listGenRet_outputs (x :: xs) Option.none true true
          (fun r' => outerStep (genOfScript r))
        rw [show listGenRet (x :: xs) Option.none
            = GenM.yields (Item.val x) (fun _ => listGenRet xs Option.none)
          from rfl] at h
        simp [genOfScript, wrapper, outerStep, flattenScript, From, genIter,
          listGenRet, get_stop_iteration_value, ih] at h ⊢
        simpa [ih] using h

/-- C2: when the inner producer terminates with `StopIteration(V)`, the
value the driver sends into the outer generator at the delegation point
is exactly `V`; when it terminates without a value, the outer generator
receives `None`. -/
theorem completion_value_round_trip (vs : List PyVal) (ret : Option PyVal) :
    outputs (wrapper (captureGen (genIter (listGenRet vs ret)))) =
      vs.map Item.val ++ [Item.val (ret.getD PyVal.none)] := by
  have hret : get_stop_iteration_value ret = ret.getD PyVal.none := by
    cases ret <;> rfl
  cases vs with
  | nil =>
    simp [wrapper, captureGen, genIter, listGenRet, outerStep, outputs, hret]
  | cons x xs =>
    have h := innerStep_listGenRet_outputs (x :: xs) ret true true
      (fun r => outerStep ((fun ev =>
        match ev with
        | .inl r' => GenM.yields (.val r') (fun _ => .stops Option.none)
        | .inr e => GenM.raises e) r))
    rw [show listGenRet (x :: xs) ret
        = GenM.yields (.val x) (fun _ => listGenRet xs ret) from rfl] at h
    simp [wrapper, captureGen, genIter, outerStep, outputs, hret] at h ⊢
    simpa using h

/-- C3: an exception thrown by the caller while the driver is suspended
on a value yielded from an active inner delegation is observed by the
inner scope's handler when one is active (the inner scope yields `200`),
otherwise by the outer scope's handler (which yields `300`), and
otherwise it escapes to the caller as the very same exception. -/
theorem injected_exception_routing (e : Exc) (hI hO : Exc → Bool) (iv : PyVal)
    (hne : e ≠ .generatorExit) :
    (wrapper (routeGen hI hO iv)).head = some (.val iv) ∧
    outputs ((wrapper (routeGen hI hO iv)).resumeWith (.inr e)) =
      (if hI e then [Item.val (.int 200)]
       else if hO e then [Item.val (.int 300)] else []) ∧
    finalExc ((wrapper (routeGen hI hO iv)).resumeWith (.inr e)) =
      (if hI e ∨ hO e then Option.none else some e) := by
  refine ⟨?_, ?_, ?_⟩
  · simp [wrapper, routeGen, genIter, handlerInner, outerStep, innerStep,
      Drv.head]
  all_goals
  · by_cases h1 : hI e <;> by_cases h2 : hO e <;>
      simp [wrapper, routeGen, genIter, handlerInner, outerStep, innerStep,
        Drv.resumeWith, outputs, finalExc, hne, h1, h2]

/-- Witness for `injected_exception_routing` at `e = ValueError`, with no
handler active in either scope: the exception escapes unchanged. -/
theorem injected_exception_routing_witness :
    (wrapper (routeGen (fun _ => false) (fun _ => false) (.int 2))).head
        = some (.val (.int 2)) ∧
    outputs ((wrapper (routeGen (fun _ => false) (fun _ => false)
        (.int 2))).resumeWith (.inr (.valueError 7))) = [] ∧
    finalExc ((wrapper (routeGen (fun _ => false) (fun _ => false)
        (.int 2))).resumeWith (.inr (.valueError 7))) = some (.valueError 7) :=
  injected_exception_routing (.valueError 7) (fun _ => false) (fun _ => false)
    (.int 2) (by decide)

/-- Counterexample to C4.  (i) Delegating to a `send`-less list iterator
suspended on `2`, the caller supplies the resume-value `5`: the claimed
fallback to a plain resume would emit `3`, but the driver instead lets
the `AttributeError` of the missing `send` attribute escape into the
outer generator (which re-raises it to the caller).  (ii) The caller
supplies the falsy resume-value `0` to a delegation over `echoInner`:
a resume-value is pending, yet the driver uses a plain resume, so the
inner generator observes `None` rather than `0`. -/
theorem send_forwarding_policy_counterexample :
    ((wrapper listDelegGen).resumeWith (.inl (.int 5)))
        = Drv.raises [Who.outer] (.attributeError "send") ∧
    ((wrapper listDelegGen).resumeWith (.inl PyVal.none)).head
        = some (.val (.int 3)) ∧
    ((wrapper (sendProbeGen true)).resumeWith (.inl (.int 0))).head
        = some (.val PyVal.none) ∧
    ((wrapper (sendProbeGen true)).resumeWith (.inl (.int 0))).head
        ≠ some (.val (.int 0)) := by
  refine ⟨?_, ?_, ?_, ?_⟩ <;>
    simp [wrapper, listDelegGen, sendProbeGen, echoInner, listIter, listGen,
      outerStep, innerStep, Drv.resumeWith, Drv.head, PyVal.truthy]

/-- C4 as amended: while delegating, the driver forwards the caller's
resume-value into the inner producer via `send` exactly when that value
is truthy (a falsy resume-value — including `None` from a plain `next()`,
but also e.g. `0` — triggers a plain resume instead), and when the inner
producer has no `send` capability and the resume-value is truthy there is
no fallback: the `AttributeError` of the missing `send` attribute is
thrown into the outer generator. -/
theorem send_forwarding_policy (sent : PyVal) (hs : Bool) :
    ((wrapper (sendProbeGen hs)).resumeWith (.inl sent)).head =
      (if sent.truthy then
        (if hs then some (Item.val sent) else Option.none)
       else some (Item.val PyVal.none)) ∧
    finalExc ((wrapper (sendProbeGen hs)).resumeWith (.inl sent)) =
      (if sent.truthy && !hs then some (.attributeError "send")
       else Option.none) := by
  cases hs <;>by_cases ht : sent.truthy <;>
    simp [wrapper, sendProbeGen, echoInner, outerStep, innerStep,
      Drv.resumeWith, Drv.head, outputs, finalExc, ht]

/-- C5: an exception injected while delegating to an inner producer with
no `throw` capability is forwarded directly into the outer generator's
`throw` (whatever the inner producer's continuation would have done),
where the delegating scope's handler observes exactly that exception,
and the driver does not fail: it continues normally afterwards. -/
theorem no_throw_capability_forwards_to_outer (e : Exc) (iv : Item)
    (ki : PyVal ⊕ Exc → GenM) (hne : e ≠ .generatorExit) :
    (wrapper (noThrowDelegGen iv ki)).head = some iv ∧
    ((wrapper (noThrowDelegGen iv ki)).resumeWith (.inr e)).head
        = some (.val (.exc e)) ∧
    finalExc ((wrapper (noThrowDelegGen iv ki)).resumeWith (.inr e))
        = Option.none := by
  refine ⟨?_, ?_, ?_⟩ <;>
    simp [wrapper, noThrowDelegGen, outerStep, innerStep, Drv.resumeWith,
      Drv.head, finalExc, hne]

/-- Witness for `no_throw_capability_forwards_to_outer`: delegating to a
throw-less producer suspended on `2`, an injected `ValueError` is
observed by the outer scope's handler. -/
theorem no_throw_capability_witness :
    (wrapper (noThrowDelegGen (.val (.int 2))
        (fun _ => .stops Option.none))).head = some (.val (.int 2)) ∧
    ((wrapper (noThrowDelegGen (.val (.int 2))
        (fun _ => .stops Option.none))).resumeWith
          (.inr (.valueError 3))).head
        = some (.val (.exc (.valueError 3))) ∧
    finalExc ((wrapper (noThrowDelegGen (.val (.int 2))
        (fun _ => .stops Option.none))).resumeWith (.inr (.valueError 3)))
        = Option.none :=
  no_throw_capability_forwards_to_outer (.valueError 3) (.val (.int 2))
    (fun _ => .stops Option.none) (by decide)

/-- C6: however the caller stops consuming the driver — exhaustion,
an escaping exception, or an external close — every exit leaf attempts
to close the outer generator exactly once and as its last close attempt,
preceded at most by the close attempt on the active inner producer;
concretely, closing while a delegation is active attempts the inner
producer's close first and then the outer's, and normal exhaustion
attempts exactly the outer close. -/
theorem driver_close_discipline (g : GenM) (evs : List (PyVal ⊕ Exc)) :
    ClosesOK ((wrapper g).afterEvents evs) ∧
    (wrapper listDelegGen).resumeWith (.inr .generatorExit)
        = Drv.raises [Who.inner, Who.outer] .generatorExit ∧
    (runAll (wrapper (genOfScript [Seg.plain (.int 1)]))).2
        = Drv.stops [Who.outer] Option.none := by
  refine ⟨closesOK_afterEvents (closesOK_outerStep g) evs, ?_, ?_⟩ <;>
    simp [wrapper, listDelegGen, listIter, listGen, genOfScript, outerStep,
      innerStep, Drv.resumeWith, runAll]

/-- C7: `From` of a non-iterable value is an empty iterator (`iter([])`,
no error raised — `From` is total), and a delegation to it emits nothing:
whatever the rest of the outer generator is, the driver behaves exactly
as if the outer generator had immediately been resumed at its next
statement with the absent value `None`.  The concrete conjunct replays
`test_non_iterable`: `yield 1; yield From(·); yield From(·); yield 2`
produces `[1, 2]`. -/
theorem non_iterable_from_is_silent_no_op (kg : PyVal ⊕ Exc → GenM) :
    From Option.none = Item.marker (listIter []) ∧
    wrapper (.yields (From Option.none) kg) = outerStep (kg (.inl PyVal.none)) ∧
    outputs (wrapper (.yields (.val (.int 1)) (fun _ =>
        .yields (From Option.none) (fun _ =>
          .yields (From Option.none) (fun _ =>
            .yields (.val (.int 2)) (fun _ => .stops Option.none)))))) =
      [Item.val (.int 1), Item.val (.int 2)] := by
  refine ⟨rfl, ?_, ?_⟩ <;>
    simp [wrapper, From, listIter, listGen, outerStep, outputs,
      get_stop_iteration_value]

/-- C8: the generator returned by a wrapped function satisfies the full
producer capability (`Drv.toGen` with all of `send`/`throw`/`close`), so
drivers compose: for every nested body, each level wrapped by
`yieldfrom`, the flattened depth-first output is obtained at any nesting
depth; and an exception injected while suspended on the value `2` of a
two-level-nested delegation is handled at the innermost level, which
yields `200`, giving the documented `[1, 200, 3, 4]` sequence. -/
theorem wrapped_drivers_compose (s : NS) :
    runAll (wrapper (genOfN s)) =
      ((flattenN s).map Item.val, Drv.stops [Who.outer] Option.none) ∧
    (wrapper nestedTop).head = some (.val (.int 1)) ∧
    ((wrapper nestedTop).resumeWith (.inl PyVal.none)).head
        = some (.val (.int 2)) ∧
    outputs (((wrapper nestedTop).resumeWith (.inl PyVal.none)).resumeWith
        (.inr (.valueError 0)))
      = [Item.val (.int 200), Item.val (.int 3), Item.val (.int 4)] := by
  refine ⟨nested_flattening s, ?_, ?_, ?_⟩ <;>
    simp [wrapper, nestedTop, nestedMid, nestedInner, genIter, Drv.toGen,
      outerStep, innerStep, Drv.resumeWith, Drv.head, outputs, PyVal.truthy,
      get_stop_iteration_value]

/-- C9: in the Outer state a thrown exception reaches the outer
generator's `throw` iff it is an `Exception` instance; a `BaseException`
that is not an `Exception` propagates to the caller (after the cleanup
close of the outer generator, as the concrete `KeyboardInterrupt`
conjunct shows).  In the Delegating state every exception other than
`GeneratorExit` — `KeyboardInterrupt` included — is forwarded inward. -/
theorem exception_class_filtering_asymmetry (e : Exc) :
    ((wrapper echoExcOuter).resumeWith (.inr e)).head =
      (if e.isExceptionClass then some (.val (.exc e)) else Option.none) ∧
    finalExc ((wrapper echoExcOuter).resumeWith (.inr e)) =
      (if e.isExceptionClass then Option.none else some e) ∧
    (wrapper echoExcOuter).resumeWith (.inr .keyboardInterrupt)
        = Drv.raises [Who.outer] .keyboardInterrupt ∧
    ((wrapper echoExcDeleg).resumeWith (.inr e)).head =
      (if e = .generatorExit then Option.none else some (.val (.exc e))) ∧
    finalExc ((wrapper echoExcDeleg).resumeWith (.inr e)) =
      (if e = .generatorExit then some Exc.generatorExit else Option.none) := by
  refine ⟨?_, ?_, ?_, ?_, ?_⟩ <;>
    cases e <;>
      simp [wrapper, echoExcOuter, echoExcDeleg, genIter, outerStep, innerStep,
        Drv.resumeWith, Drv.head, finalExc, Exc.isExceptionClass]

/-- C10: a `From` instance yielded by an active inner producer is passed
through to the external caller unchanged (the very same marker object),
instead of starting a nested delegation; the concrete conjunct shows a
whole run in which the inner producer yields `From([9])` and then `3`:
the caller receives the untouched marker and then `3`, never `9`. -/
theorem inner_from_markers_pass_through (it2 : Iterat)
    (ki kg : PyVal ⊕ Exc → GenM) :
    (wrapper (markerYieldingDeleg it2 ki kg)).head = some (.marker it2) ∧
    outputs (wrapper (.yields (.marker (genIter
        (listGen [.marker (listIter [.val (.int 9)]), .val (.int 3)])))
        (fun _ => .stops Option.none)))
      = [Item.marker (listIter [.val (.int 9)]), Item.val (.int 3)] := by
  refine ⟨?_, ?_⟩ <;>
    simp [wrapper, markerYieldingDeleg, genIter, listIter, listGen, outerStep,
      innerStep, Drv.head, outputs, PyVal.truthy, get_stop_iteration_value]

end YieldFrom
